import Mathlib

/-!
Verification development for a GitHub OAuth 2.0 device-flow client
(single Go source file `main.go`).

Modelling conventions:
* JSON response bodies are modelled abstractly: a body is either
  `malformed` (not valid JSON, or not a JSON object) or an object giving
  an optional JSON value for each field the program's structs know about
  (unknown fields are ignored by Go's `json.Unmarshal`, so they need not
  be modelled).  A JSON value is a string, an integer, `null`, or some
  other shape (`JVal.other`: booleans, arrays, nested objects,
  non-integral numbers), mirroring exactly what `json.Unmarshal` accepts
  for the `string` and `int` struct fields used by the program: a missing
  field or `null` leaves the zero value, a well-typed value is stored,
  and any other shape makes `Unmarshal` return a non-nil error.
* The HTTP transport is abstracted by a script: the list of response
  bodies the token endpoint returns, in order, one per request issued.
  Transport-level failures are outside the scripts (they would simply
  surface as an early error return).
* Time is modelled by explicit integer timestamps in nanoseconds
  (`second = 1000000000`, matching `time.Second`); `time.Sleep d`
  advances the current time by `d`, and the HTTP round trips and prints
  are charged to explicit elapsed-time parameters of `run`.  Durations
  are modelled as unbounded integers (the spec treats `currentInterval`
  as an abstract number of seconds with explicitly uncapped growth).
* `pollAccessToken` is instrumented to also return the list of events it
  performs (sleeps, deadline checks, token requests), so that temporal
  claims about the order of those events can be stated.
-/

/-- A JSON value as far as the program's struct fields can observe it. -/
inductive JVal where
  | str (s : String)
  | num (n : Int)
  | null
  | other
deriving DecidableEq

/-- Decoding of an optional JSON field into a Go `string` struct field:
a missing field or `null` yields the zero value `""`, a string yields
itself, anything else is an unmarshalling error (`none`). -/
def decodeStr : Option JVal → Option String
  | none => some ""
  | some (JVal.str s) => some s
  | some JVal.null => some ""
  | some _ => none

/-- Decoding of an optional JSON field into a Go `int` struct field:
a missing field or `null` yields the zero value `0`, an integral number
yields itself, anything else is an unmarshalling error (`none`). -/
def decodeInt : Option JVal → Option Int
  | none => some 0
  | some (JVal.num n) => some n
  | some JVal.null => some 0
  | some _ => none

/-- The optional JSON field can be decoded into a Go `string` struct
field (it is missing, `null`, or a string). -/
def strField : Option JVal → Bool
  | none => true
  | some (JVal.str _) => true
  | some JVal.null => true
  | some _ => false

/-- The optional JSON field can be decoded into a Go `int` struct field
(it is missing, `null`, or an integral number). -/
def intField : Option JVal → Bool
  | none => true
  | some (JVal.num _) => true
  | some JVal.null => true
  | some _ => false

/-- The string stored for an optional JSON field, zero-filled. -/
def strOrZero (x : Option JVal) : String := (decodeStr x).getD ""

/-- The integer stored for an optional JSON field, zero-filled. -/
def intOrZero (x : Option JVal) : Int := (decodeInt x).getD 0

/-- `deviceCodeResponse` struct of the source. -/
structure deviceCodeResponse where
  DeviceCode : String
  ExpiresIn : Int
  Interval : Int
  UserCode : String
  VerificationURI : String
deriving DecidableEq

/-- The fields of a device-code endpoint response body that the
`deviceCodeResponse` struct can observe. -/
structure DeviceBodyFields where
  device_code : Option JVal
  expires_in : Option JVal
  interval : Option JVal
  user_code : Option JVal
  verification_uri : Option JVal
deriving DecidableEq

/-- A device-code endpoint response body. -/
inductive DeviceCodeBody where
  | malformed
  | obj (f : DeviceBodyFields)
deriving DecidableEq

/-- `json.Unmarshal(body, &deviceCodeResponse)` : succeeds iff the body
is a JSON object whose known fields are well-typed; missing fields keep
their zero values. -/
def unmarshalDeviceCode : DeviceCodeBody → Option deviceCodeResponse
  | DeviceCodeBody.malformed => none
  | DeviceCodeBody.obj f =>
    match decodeStr f.device_code, decodeInt f.expires_in, decodeInt f.interval,
        decodeStr f.user_code, decodeStr f.verification_uri with
    | some dc, some ei, some iv, some uc, some vu => some ⟨dc, ei, iv, uc, vu⟩
    | _, _, _, _, _ => none

/-- `postDeviceCode` of the source, given the body the device-code
endpoint answers with: `none` models returning a non-nil error. -/
def postDeviceCode (body : DeviceCodeBody) : Option deviceCodeResponse :=
  unmarshalDeviceCode body

/-- `accessTokenResponse` struct of the source. -/
structure accessTokenResponse where
  AccessToken : String
  TokenType : String
  Scope : String
deriving DecidableEq

/-- `accessTokenErrorResponse` struct of the source. -/
structure accessTokenErrorResponse where
  Error : String
  ErrorDescription : String
  ErrorUri : String
deriving DecidableEq

/-- The fields of a token endpoint response body that the two response
structs can observe. -/
structure TokenBodyFields where
  access_token : Option JVal
  token_type : Option JVal
  scope : Option JVal
  error : Option JVal
  error_description : Option JVal
  error_uri : Option JVal
deriving DecidableEq

/-- A token endpoint response body. -/
inductive TokenBody where
  | malformed
  | obj (f : TokenBodyFields)
deriving DecidableEq

/-- `json.Unmarshal(body, &accessTokenResponse)`. -/
def unmarshalAccessToken : TokenBody → Option accessTokenResponse
  | TokenBody.malformed => none
  | TokenBody.obj f =>
    match decodeStr f.access_token, decodeStr f.token_type, decodeStr f.scope with
    | some a, some t, some s => some ⟨a, t, s⟩
    | _, _, _ => none

/-- `json.Unmarshal(body, &accessTokenErrorResponse)`. -/
def unmarshalAccessTokenError : TokenBody → Option accessTokenErrorResponse
  | TokenBody.malformed => none
  | TokenBody.obj f =>
    match decodeStr f.error, decodeStr f.error_description, decodeStr f.error_uri with
    | some e, some d, some u => some ⟨e, d, u⟩
    | _, _, _ => none

/-- The `(res, errRes, err)` triple returned by `postAccessToken`:
`success r` is `(r, nil, nil)`, `errorResp e` is `(nil, e, nil)`,
`nilAll` is `(nil, nil, nil)` (both unmarshals leave empty key fields),
and `decodeFail` is `(nil, nil, err)` with a non-nil error. -/
inductive postAccessTokenResult where
  | success (res : accessTokenResponse)
  | errorResp (errRes : accessTokenErrorResponse)
  | nilAll
  | decodeFail
deriving DecidableEq

/-- `postAccessToken` of the source, given the body the token endpoint
answers with: first try to unmarshal as a success payload and return it
when `AccessToken` is non-empty; otherwise try to unmarshal as an error
payload and return it when `Error` is non-empty; otherwise return the
error value of the second unmarshal (which is nil when that unmarshal
succeeded: the `nilAll` outcome). -/
def postAccessToken (body : TokenBody) : postAccessTokenResult :=
  let second : postAccessTokenResult :=
    match unmarshalAccessTokenError body with
    | some errRes =>
      if errRes.Error ≠ "" then postAccessTokenResult.errorResp errRes
      else postAccessTokenResult.nilAll
    | none => postAccessTokenResult.decodeFail
  match unmarshalAccessToken body with
  | some res =>
    if res.AccessToken ≠ "" then postAccessTokenResult.success res
    else second
  | none => second

/-- One observable action of the polling loop. -/
inductive Event where
  | sleep (d : Int)
  | deadlineCheck (now expiresAt : Int)
  | request (body : TokenBody)
deriving DecidableEq

/-- The `(acResp, err)` pair returned by `pollAccessToken`:
`token r` is `(r, nil)`; `nilToken` is `(nil, nil)` (the fall-through
`return acResp, nil` with a nil `acResp`); `expired` is the
"code is already expired" error; `authError c d u` is the formatted
terminal provider error; `decodeFail` propagates a non-nil error from
`postAccessToken`.  `ranOut` is a model artifact: the response script
was exhausted while the program would have kept polling. -/
inductive pollResult where
  | token (res : accessTokenResponse)
  | nilToken
  | expired
  | authError (code description uri : String)
  | decodeFail
  | ranOut
deriving DecidableEq

/-- `pollAccessToken` of the source, instrumented with its event trace.
Each loop iteration sleeps for `interval`, then checks
`time.Now().After(expiresAt)` (strictly after), then issues one token
request answered by the next body of the script, then classifies the
outcome exactly as the source's if-chain does. -/
def pollAccessToken : List TokenBody → Int → Int → Int → List Event × pollResult
  | [], now, interval, expiresAt =>
    if expiresAt < now + interval then
      ([Event.sleep interval, Event.deadlineCheck (now + interval) expiresAt],
       pollResult.expired)
    else
      ([Event.sleep interval, Event.deadlineCheck (now + interval) expiresAt],
       pollResult.ranOut)
  | b :: rest, now, interval, expiresAt =>
    if expiresAt < now + interval then
      ([Event.sleep interval, Event.deadlineCheck (now + interval) expiresAt],
       pollResult.expired)
    else
      let evs : List Event :=
        [Event.sleep interval, Event.deadlineCheck (now + interval) expiresAt,
         Event.request b]
      match postAccessToken b with
      | postAccessTokenResult.decodeFail => (evs, pollResult.decodeFail)
      | postAccessTokenResult.errorResp e =>
        if e.Error = "authorization_pending" then
          let next := pollAccessToken rest (now + interval) interval expiresAt
          (evs ++ next.1, next.2)
        else if e.Error = "slow_down" then
          let next := pollAccessToken rest (now + interval) (interval * 2) expiresAt
          (evs ++ next.1, next.2)
        else if e.Error ≠ "" then
          (evs, pollResult.authError e.Error e.ErrorDescription e.ErrorUri)
        else
          (evs, pollResult.nilToken)
      | postAccessTokenResult.success r => (evs, pollResult.token r)
      | postAccessTokenResult.nilAll => (evs, pollResult.nilToken)

/-- Number of token requests recorded in a trace. -/
def countRequests (tr : List Event) : Nat :=
  tr.countP fun e =>
    match e with
    | Event.request _ => true
    | _ => false

/-- The successive sleep durations of a trace: the value of
`currentInterval` at each loop iteration. -/
def sleeps (tr : List Event) : List Int :=
  tr.filterMap fun e =>
    match e with
    | Event.sleep d => some d
    | _ => none

/-- Every token request of the trace is immediately preceded by a
deadline check against `ex` that passed (checked time at most `ex`). -/
def requestsGuarded (ex : Int) : List Event → Bool
  | [] => true
  | Event.request _ :: _ => false
  | Event.sleep _ :: rest => requestsGuarded ex rest
  | Event.deadlineCheck t e :: Event.request _ :: rest =>
    decide (e = ex) && decide (t ≤ ex) && requestsGuarded ex rest
  | Event.deadlineCheck _ _ :: rest => requestsGuarded ex rest

/-- Whenever a deadline check of the trace fails (checked time strictly
past `ex`), it is the final event of the trace and the loop's result is
`expired`. -/
def failedCheckStops (ex : Int) (res : pollResult) : List Event → Bool
  | [] => true
  | Event.deadlineCheck t _ :: rest =>
    if ex < t then rest.isEmpty && decide (res = pollResult.expired)
    else failedCheckStops ex res rest
  | _ :: rest => failedCheckStops ex res rest

/-- The trace does not begin with a deadline check. -/
def headNotCheck : List Event → Bool
  | Event.deadlineCheck _ _ :: _ => false
  | _ => true

/-- Every deadline check of the trace is immediately preceded by a
sleep. -/
def adjacentCheckAfterSleep : List Event → Bool
  | e1 :: e2 :: rest =>
    (match e2 with
     | Event.deadlineCheck _ _ =>
       match e1 with
       | Event.sleep _ => true
       | _ => false
     | _ => true) && adjacentCheckAfterSleep (e2 :: rest)
  | _ => true

/-- Every deadline check of the trace is immediately preceded by a
sleep (and the trace never opens with a check). -/
def checksAfterSleep (tr : List Event) : Bool :=
  headNotCheck tr && adjacentCheckAfterSleep tr

/-- No deadline check is immediately followed by a sleep. -/
def noSleepRightAfterCheck : List Event → Bool
  | e1 :: e2 :: rest =>
    (match e1, e2 with
     | Event.deadlineCheck _ _, Event.sleep _ => false
     | _, _ => true) && noSleepRightAfterCheck (e2 :: rest)
  | _ => true

/-- `time.Second` in nanoseconds. -/
def second : Int := 1000000000

/-- Outcome of `run`: `ok tok` prints the access token and returns nil;
`deviceCodeDecodeFail` returns the device-code stage error;
`pollFailed res` returns the poller's error unchanged; `panicNilDeref`
marks the execution that dereferences `acResp.AccessToken` while
`acResp` is nil (a Go runtime panic). -/
inductive runResult where
  | ok (accessToken : String)
  | deviceCodeDecodeFail
  | pollFailed (res : pollResult)
  | panicNilDeref
deriving DecidableEq

/-- `run` of the source.  `startTime` is `time.Now()` at entry
(`deviceCodeRequestTime`); `reqElapsed` and `printElapsed` are the wall
clock consumed by the device-code round trip and the user-facing
prints, so polling begins at `startTime + reqElapsed + printElapsed`;
the deadline is computed from `deviceCodeRequestTime` alone. -/
def run (startTime reqElapsed printElapsed : Int) (dcBody : DeviceCodeBody)
    (script : List TokenBody) : runResult :=
  let deviceCodeRequestTime := startTime
  match postDeviceCode dcBody with
  | none => runResult.deviceCodeDecodeFail
  | some dcResp =>
    let interval := (dcResp.Interval + 1) * second
    let expiresAt := deviceCodeRequestTime + dcResp.ExpiresIn * second
    let pollStart := startTime + reqElapsed + printElapsed
    match (pollAccessToken script pollStart interval expiresAt).2 with
    | pollResult.token acResp => runResult.ok acResp.AccessToken
    | pollResult.nilToken => runResult.panicNilDeref
    | res => runResult.pollFailed res

/-- A token body carrying only `error = "authorization_pending"`. -/
def pendingBody : TokenBody :=
  TokenBody.obj ⟨none, none, none, some (JVal.str "authorization_pending"), none, none⟩

/-- A token body carrying only `error = "slow_down"`. -/
def slowDownBody : TokenBody :=
  TokenBody.obj ⟨none, none, none, some (JVal.str "slow_down"), none, none⟩

/-- A token body carrying only `error = "expired_token"`. -/
def expiredTokenBody : TokenBody :=
  TokenBody.obj ⟨none, none, none, some (JVal.str "expired_token"), none, none⟩

/-- A token body for a successful grant of token `tok123`. -/
def successBody : TokenBody :=
  TokenBody.obj ⟨some (JVal.str "tok123"), some (JVal.str "bearer"),
    some (JVal.str ""), none, none, none⟩

/-- A token body that is a valid JSON object with none of the known
fields: it decodes as neither a success nor an error payload. -/
def emptyObjBody : TokenBody :=
  TokenBody.obj ⟨none, none, none, none, none, none⟩

/-- A token body whose `access_token` is the non-empty string `"x"`,
whose `token_type` is the number `5` (ill-typed for the success
struct), and which carries an `error` sibling `"access_denied"`. -/
def mixedBody : TokenBody :=
  TokenBody.obj ⟨some (JVal.str "x"), some (JVal.num 5), none,
    some (JVal.str "access_denied"), none, none⟩

/-- A well-formed device-code body: the end-to-end scenario of the
specification (`expires_in = 900`, `interval = 5`). -/
def goodDeviceBody : DeviceCodeBody :=
  DeviceCodeBody.obj ⟨some (JVal.str "D"), some (JVal.num 900), some (JVal.num 5),
    some (JVal.str "ABCD-1234"), some (JVal.str "https://x/device")⟩

/-- A device-code body that is a valid JSON object with every known
field missing. -/
def emptyDeviceBody : DeviceCodeBody :=
  DeviceCodeBody.obj ⟨none, none, none, none, none⟩

/-- C1: on every iteration no token request is issued once `now` is past
`expiresAt`: every request event of the trace is immediately preceded by
a deadline check (against the fixed `expiresAt`) that passed, and
whenever a deadline check fails the loop ends there with the `expired`
result, issuing no further token request. -/
theorem poll_never_requests_past_deadline (rs : List TokenBody)
    (now interval expiresAt : Int) :
    requestsGuarded expiresAt (pollAccessToken rs now interval expiresAt).1 = true ∧
    failedCheckStops expiresAt (pollAccessToken rs now interval expiresAt).2
      (pollAccessToken rs now interval expiresAt).1 = true := by
  induction rs generalizing now interval with
  | nil =>
    by_cases h : expiresAt < now + interval
    · simp [pollAccessToken, h, requestsGuarded, failedCheckStops]
    · simp [pollAccessToken, h, requestsGuarded, failedCheckStops]
  | cons b rest ih =>
    by_cases h : expiresAt < now + interval
    · simp [pollAccessToken, h, requestsGuarded, failedCheckStops]
    · cases hb : postAccessToken b with
      | decodeFail =>
        simp [pollAccessToken, h, hb, requestsGuarded, failedCheckStops, not_lt.mp h]
      | success r =>
        simp [pollAccessToken, h, hb, requestsGuarded, failedCheckStops, not_lt.mp h]
      | nilAll =>
        simp [pollAccessToken, h, hb, requestsGuarded, failedCheckStops, not_lt.mp h]
      | errorResp e =>
        by_cases hp : e.Error = "authorization_pending"
        · have hih := ih (now + interval) interval
          simp [pollAccessToken, h, hb, hp, requestsGuarded, failedCheckStops,
            not_lt.mp h, hih.1, hih.2]
        · by_cases hs : e.Error = "slow_down"
          · have hih := ih (now + interval) (interval * 2)
            simp [pollAccessToken, h, hb, hp, hs, requestsGuarded, failedCheckStops,
              not_lt.mp h, hih.1, hih.2]
          · by_cases he : e.Error = ""
            · simp [pollAccessToken, h, hb, hp, hs, he, requestsGuarded,
                failedCheckStops, not_lt.mp h]
            · simp [pollAccessToken, h, hb, hp, hs, he, requestsGuarded,
                failedCheckStops, not_lt.mp h]

/-- Every poll trace begins with the sleep for the current interval
followed by the deadline check upon waking. -/
lemma poll_trace_head (rs : List TokenBody) (now interval expiresAt : Int) :
    ∃ tl, (pollAccessToken rs now interval expiresAt).1 =
      Event.sleep interval :: Event.deadlineCheck (now + interval) expiresAt :: tl := by
  cases rs with
  | nil =>
    by_cases h : expiresAt < now + interval
    · simp [pollAccessToken, h]
    · simp [pollAccessToken, h]
  | cons b rest =>
    by_cases h : expiresAt < now + interval
    · simp [pollAccessToken, h]
    · cases hb : postAccessToken b with
      | decodeFail => simp [pollAccessToken, h, hb]
      | success r => simp [pollAccessToken, h, hb]
      | nilAll => simp [pollAccessToken, h, hb]
      | errorResp e =>
        by_cases hp : e.Error = "authorization_pending"
        · simp [pollAccessToken, h, hb, hp]
        · by_cases hs : e.Error = "slow_down"
          · simp [pollAccessToken, h, hb, hp, hs]
          · by_cases he : e.Error = ""
            · simp [pollAccessToken, h, hb, hp, hs, he]
            · simp [pollAccessToken, h, hb, hp, hs, he]

/-- C10: in every iteration, including the first, the sleep comes
before the deadline check (every check is immediately preceded by a
sleep, the trace never opens with a check, and no check is immediately
followed by a sleep); consequently a call whose `expiresAt` is already
in the past still sleeps for one full interval and only then returns
the expiry error, issuing no token request. -/
theorem sleep_precedes_deadline_check (rs : List TokenBody)
    (now interval expiresAt : Int) :
    checksAfterSleep (pollAccessToken rs now interval expiresAt).1 = true ∧
    noSleepRightAfterCheck (pollAccessToken rs now interval expiresAt).1 = true ∧
    (expiresAt < now → 0 ≤ interval →
      pollAccessToken rs now interval expiresAt =
        ([Event.sleep interval, Event.deadlineCheck (now + interval) expiresAt],
         pollResult.expired)) := by
  induction rs generalizing now interval with
  | nil =>
    by_cases h : expiresAt < now + interval
    · simp [pollAccessToken, h, checksAfterSleep, headNotCheck,
        adjacentCheckAfterSleep, noSleepRightAfterCheck]
    · refine ⟨by simp [pollAccessToken, h, checksAfterSleep, headNotCheck,
        adjacentCheckAfterSleep], by simp [pollAccessToken, h, noSleepRightAfterCheck],
        fun hpast hnn => absurd (by linarith : expiresAt < now + interval) h⟩
  | cons b rest ih =>
    by_cases h : expiresAt < now + interval
    · simp [pollAccessToken, h, checksAfterSleep, headNotCheck,
        adjacentCheckAfterSleep, noSleepRightAfterCheck]
    · refine ⟨?_, ?_, fun hpast hin => absurd (by linarith : expiresAt < now + interval) h⟩
      · cases hb : postAccessToken b with
        | decodeFail =>
          simp [pollAccessToken, h, hb, checksAfterSleep, headNotCheck,
            adjacentCheckAfterSleep]
        | success r =>
          simp [pollAccessToken, h, hb, checksAfterSleep, headNotCheck,
            adjacentCheckAfterSleep]
        | nilAll =>
          simp [pollAccessToken, h, hb, checksAfterSleep, headNotCheck,
            adjacentCheckAfterSleep]
        | errorResp e =>
          by_cases hp : e.Error = "authorization_pending"
          · obtain ⟨tl, htl⟩ := poll_trace_head rest (now + interval) interval expiresAt
            have hih := (ih (now + interval) interval).1
            rw [htl] at hih
            simp [pollAccessToken, h, hb, hp, htl, checksAfterSleep, headNotCheck,
              adjacentCheckAfterSleep] at hih ⊢
            exact hih
          · by_cases hs : e.Error = "slow_down"
            · obtain ⟨tl, htl⟩ := poll_trace_head rest (now + interval) (interval * 2) expiresAt
              have hih := (ih (now + interval) (interval * 2)).1
              rw [htl] at hih
              simp [pollAccessToken, h, hb, hp, hs, htl, checksAfterSleep, headNotCheck,
                adjacentCheckAfterSleep] at hih ⊢
              exact hih
            · by_cases he : e.Error = ""
              · simp [pollAccessToken, h, hb, hp, hs, he, checksAfterSleep,
                  headNotCheck, adjacentCheckAfterSleep]
              · simp [pollAccessToken, h, hb, hp, hs, he, checksAfterSleep,
                  headNotCheck, adjacentCheckAfterSleep]
      · cases hb : postAccessToken b with
        | decodeFail => simp [pollAccessToken, h, hb, noSleepRightAfterCheck]
        | success r => simp [pollAccessToken, h, hb, noSleepRightAfterCheck]
        | nilAll => simp [pollAccessToken, h, hb, noSleepRightAfterCheck]
        | errorResp e =>
          by_cases hp : e.Error = "authorization_pending"
          · obtain ⟨tl, htl⟩ := poll_trace_head rest (now + interval) interval expiresAt
            have hih := (ih (now + interval) interval).2.1
            rw [htl] at hih
            simp [pollAccessToken, h, hb, hp, htl, noSleepRightAfterCheck] at hih ⊢
            exact hih
          · by_cases hs : e.Error = "slow_down"
            · obtain ⟨tl, htl⟩ := poll_trace_head rest (now + interval) (interval * 2) expiresAt
              have hih := (ih (now + interval) (interval * 2)).2.1
              rw [htl] at hih
              simp [pollAccessToken, h, hb, hp, hs, htl, noSleepRightAfterCheck] at hih ⊢
              exact hih
            · by_cases he : e.Error = ""
              · simp [pollAccessToken, h, hb, hp, hs, he, noSleepRightAfterCheck]
              · simp [pollAccessToken, h, hb, hp, hs, he, noSleepRightAfterCheck]

/-- The first sleep of a poll trace lasts exactly the current interval. -/
lemma poll_sleeps_head (rs : List TokenBody) (now interval expiresAt : Int) :
    ∃ l, sleeps (pollAccessToken rs now interval expiresAt).1 = interval :: l := by
  obtain ⟨tl, htl⟩ := poll_trace_head rs now interval expiresAt
  exact ⟨sleeps tl, by simp [htl, sleeps]⟩

/-- The successive sleep durations of a poll trace are monotonically
non-decreasing whenever the starting interval is non-negative. -/
lemma poll_sleeps_chain (rs : List TokenBody) :
    ∀ now interval expiresAt : Int, 0 ≤ interval →
      List.Chain' (· ≤ ·) (sleeps (pollAccessToken rs now interval expiresAt).1) := by
  induction rs with
  | nil =>
    intro now interval ex hi
    by_cases h : ex < now + interval <;> simp [pollAccessToken, h, sleeps]
  | cons b rest ih =>
    intro now interval ex hi
    by_cases h : ex < now + interval
    · simp [pollAccessToken, h, sleeps]
    · cases hb : postAccessToken b with
      | decodeFail => simp [pollAccessToken, h, hb, sleeps]
      | success r => simp [pollAccessToken, h, hb, sleeps]
      | nilAll => simp [pollAccessToken, h, hb, sleeps]
      | errorResp e =>
        by_cases hp : e.Error = "authorization_pending"
        · obtain ⟨l, hl⟩ := poll_sleeps_head rest (now + interval) interval ex
          have hchain := ih (now + interval) interval ex hi
          rw [hl] at hchain
          simp only [sleeps] at hl
          simp [pollAccessToken, h, hb, hp, sleeps, hl]
          exact hchain
        · by_cases hs : e.Error = "slow_down"
          · obtain ⟨l, hl⟩ := poll_sleeps_head rest (now + interval) (interval * 2) ex
            have hchain := ih (now + interval) (interval * 2) ex (by linarith)
            rw [hl] at hchain
            simp only [sleeps] at hl
            simp [pollAccessToken, h, hb, hp, hs, sleeps, hl]
            exact ⟨by linarith, hchain⟩
          · by_cases he : e.Error = ""
            · simp [pollAccessToken, h, hb, hp, hs, he, sleeps]
            · simp [pollAccessToken, h, hb, hp, hs, he, sleeps]

/-- Every deadline check of a poll trace compares against the fixed
`expiresAt` argument: the deadline is never modified by a transition. -/
lemma poll_checks_fixed (rs : List TokenBody) :
    ∀ (now interval expiresAt t e : Int),
      Event.deadlineCheck t e ∈ (pollAccessToken rs now interval expiresAt).1 →
      e = expiresAt := by
  induction rs with
  | nil =>
    intro now interval ex t e hmem
    by_cases h : ex < now + interval <;> simp [pollAccessToken, h] at hmem <;>
      exact hmem.2
  | cons b rest ih =>
    intro now interval ex t e hmem
    by_cases h : ex < now + interval
    · simp [pollAccessToken, h] at hmem
      exact hmem.2
    · cases hb : postAccessToken b with
      | decodeFail =>
        simp [pollAccessToken, h, hb] at hmem
        exact hmem.2
      | success r =>
        simp [pollAccessToken, h, hb] at hmem
        exact hmem.2
      | nilAll =>
        simp [pollAccessToken, h, hb] at hmem
        exact hmem.2
      | errorResp e' =>
        by_cases hp : e'.Error = "authorization_pending"
        · simp [pollAccessToken, h, hb, hp] at hmem
          rcases hmem with ⟨ht, he⟩ | hmem
          · exact he
          · exact ih (now + interval) interval ex t e hmem
        · by_cases hs : e'.Error = "slow_down"
          · simp [pollAccessToken, h, hb, hp, hs] at hmem
            rcases hmem with ⟨ht, he⟩ | hmem
            · exact he
            · exact ih (now + interval) (interval * 2) ex t e hmem
          · by_cases he' : e'.Error = ""
            · simp [pollAccessToken, h, hb, hp, hs, he'] at hmem
              exact hmem.2
            · simp [pollAccessToken, h, hb, hp, hs, he'] at hmem
              exact hmem.2

/-- C9: across one poller run the loop state keeps its invariant:
the current interval (the successive sleep durations) is monotonically
non-decreasing, and every deadline check compares against the
`expiresAt` fixed at loop start. -/
theorem poll_state_invariant (rs : List TokenBody) (now interval expiresAt : Int)
    (hi : 0 ≤ interval) :
    List.Chain' (· ≤ ·) (sleeps (pollAccessToken rs now interval expiresAt).1) ∧
    ∀ t e, Event.deadlineCheck t e ∈ (pollAccessToken rs now interval expiresAt).1 →
      e = expiresAt :=
  ⟨poll_sleeps_chain rs now interval expiresAt hi,
   fun t e hmem => poll_checks_fixed rs now interval expiresAt t e hmem⟩

/-- One is at most any power of two, over the integers. -/
lemma one_le_two_pow_int (n : Nat) : (1 : Int) ≤ 2 ^ n := by
  exact_mod_cast Nat.one_le_two_pow (n := n)

/-- C2: handling `k` consecutive `slow_down` responses returns the loop
to the waiting state each time with the interval doubled and no upper
cap: the poller then continues on the remaining script with
`currentInterval = initialInterval * 2 ^ k`, having issued exactly one
token request per `slow_down` response. -/
theorem slow_down_doubles_interval (sds rest : List TokenBody)
    (now interval expiresAt : Int)
    (hsd : ∀ b ∈ sds, ∃ e, postAccessToken b = postAccessTokenResult.errorResp e ∧
      e.Error = "slow_down")
    (hi : 0 ≤ interval)
    (hd : now + interval * (2 ^ sds.length - 1) ≤ expiresAt) :
    ∃ evs, countRequests evs = sds.length ∧
      pollAccessToken (sds ++ rest) now interval expiresAt =
        (evs ++ (pollAccessToken rest (now + interval * (2 ^ sds.length - 1))
            (interval * 2 ^ sds.length) expiresAt).1,
         (pollAccessToken rest (now + interval * (2 ^ sds.length - 1))
            (interval * 2 ^ sds.length) expiresAt).2) := by
  induction sds generalizing now interval with
  | nil =>
    refine ⟨[], rfl, ?_⟩
    simp
  | cons b sds' ih =>
    obtain ⟨e, hb, he⟩ := hsd b (List.mem_cons_self b sds')
    have hpow : (1 : Int) ≤ 2 ^ sds'.length := one_le_two_pow_int sds'.length
    have hlen : ((b :: sds').length : Nat) = sds'.length + 1 := by simp
    rw [hlen] at hd
    have hstep : now + interval ≤ expiresAt := by
      have h1 : interval * 1 ≤ interval * (2 ^ (sds'.length + 1) - 1) := by
        apply mul_le_mul_of_nonneg_left _ hi
        have : (2 : Int) ≤ 2 ^ (sds'.length + 1) := by
          rw [pow_succ]
          nlinarith
        linarith
      linarith
    have hcheck : ¬ expiresAt < now + interval := not_lt.mpr hstep
    have hd' : (now + interval) + (interval * 2) * (2 ^ sds'.length - 1) ≤ expiresAt := by
      have heq : (now + interval) + (interval * 2) * (2 ^ sds'.length - 1) =
          now + interval * (2 ^ (sds'.length + 1) - 1) := by
        rw [pow_succ]; ring
      rw [heq]; exact hd
    obtain ⟨evs', hcount', heq'⟩ :=
      ih (now + interval) (interval * 2)
        (fun b' hb' => hsd b' (List.mem_cons_of_mem b hb')) (by linarith) hd'
    refine ⟨[Event.sleep interval, Event.deadlineCheck (now + interval) expiresAt,
      Event.request b] ++ evs', ?_, ?_⟩
    · simp [countRequests, List.countP_cons] at hcount' ⊢
      omega
    · have harg1 : (now + interval) + (interval * 2) * (2 ^ sds'.length - 1) =
          now + interval * (2 ^ (sds'.length + 1) - 1) := by
        rw [pow_succ]; ring
      have harg2 : (interval * 2) * 2 ^ sds'.length = interval * 2 ^ (sds'.length + 1) := by
        rw [pow_succ]; ring
      rw [harg1, harg2] at heq'
      have hne : e.Error ≠ "authorization_pending" := by rw [he]; decide
      have hcons : (b :: sds') ++ rest = b :: (sds' ++ rest) := by simp
      rw [hcons]
      simp only [pollAccessToken, hcheck, if_false, hb, he, hlen]
      rw [if_pos trivial, heq']
      simp [List.append_assoc]

/-- C3: a run of `authorization_pending` responses followed by one
success response, all within the deadline, keeps the interval unchanged
on every iteration (every sleep lasts the initial interval), issues one
token request per response (`pendingCount + 1` in total), and finally
returns the success payload. -/
theorem pending_then_success (ps : List TokenBody) (s : TokenBody)
    (r : accessTokenResponse) (now interval expiresAt : Int)
    (hs : postAccessToken s = postAccessTokenResult.success r)
    (hi : 0 ≤ interval)
    (hps : ∀ b ∈ ps, ∃ e, postAccessToken b = postAccessTokenResult.errorResp e ∧
      e.Error = "authorization_pending")
    (hd : now + ((ps.length : Int) + 1) * interval ≤ expiresAt) :
    (pollAccessToken (ps ++ [s]) now interval expiresAt).2 = pollResult.token r ∧
    countRequests (pollAccessToken (ps ++ [s]) now interval expiresAt).1 =
      ps.length + 1 ∧
    sleeps (pollAccessToken (ps ++ [s]) now interval expiresAt).1 =
      List.replicate (ps.length + 1) interval := by
  revert hps hd
  induction ps generalizing now with
  | nil =>
    intro hps hd
    simp only [List.length_nil, Nat.cast_zero, zero_add, one_mul] at hd
    have hcheck : ¬ expiresAt < now + interval := not_lt.mpr hd
    simp [pollAccessToken, hcheck, hs, countRequests, sleeps]
  | cons b ps' ih =>
    intro hps hd
    obtain ⟨e, hb, he⟩ := hps b (List.mem_cons_self b ps')
    simp only [List.length_cons] at hd
    push_cast at hd
    have hexp : ((ps'.length : Int) + 1 + 1) * interval =
        ((ps'.length : Int) + 1) * interval + interval := by ring
    rw [hexp] at hd
    have hll : (0 : Int) ≤ (ps'.length : Int) := by positivity
    have hm : (0 : Int) ≤ ((ps'.length : Int) + 1) * interval :=
      mul_nonneg (by linarith) hi
    have hstep : now + interval ≤ expiresAt := by linarith
    have hcheck : ¬ expiresAt < now + interval := not_lt.mpr hstep
    have hd' : (now + interval) + ((ps'.length : Int) + 1) * interval ≤ expiresAt := by
      linarith
    have hnext := ih (now + interval)
      (fun b' hb' => hps b' (List.mem_cons_of_mem b hb')) hd'
    simp only [List.cons_append]
    simp only [pollAccessToken, hcheck, if_false, hb, he]
    rw [if_pos trivial]
    simp only [countRequests, sleeps] at hnext ⊢
    simp [List.countP_append, List.countP_cons, hnext.1, hnext.2.1, hnext.2.2,
      List.replicate_succ]

/-- `postAccessToken` only reports an error payload whose `Error` field
is non-empty: the source guards the error return with `errRes.Error != ""`. -/
lemma postAccessToken_errorResp_nonempty (b : TokenBody)
    (e : accessTokenErrorResponse)
    (h : postAccessToken b = postAccessTokenResult.errorResp e) : e.Error ≠ "" := by
  cases hv : unmarshalAccessTokenError b with
  | none =>
    exfalso
    cases hu : unmarshalAccessToken b with
    | none => simp [postAccessToken, hu, hv] at h
    | some res =>
      by_cases ha : res.AccessToken = ""
      · simp [postAccessToken, hu, hv, ha] at h
      · simp [postAccessToken, hu, hv, ha] at h
  | some errRes =>
    by_cases he : errRes.Error = ""
    · exfalso
      cases hu : unmarshalAccessToken b with
      | none => simp [postAccessToken, hu, hv, he] at h
      | some res =>
        by_cases ha : res.AccessToken = ""
        · simp [postAccessToken, hu, hv, he, ha] at h
        · simp [postAccessToken, hu, hv, he, ha] at h
    · cases hu : unmarshalAccessToken b with
      | none =>
        simp [postAccessToken, hu, hv, he] at h
        exact h ▸ he
      | some res =>
        by_cases ha : res.AccessToken = ""
        · simp [postAccessToken, hu, hv, he, ha] at h
          exact h ▸ he
        · simp [postAccessToken, hu, hv, he, ha] at h

/-- C5: the first error response whose code is non-empty and neither
`authorization_pending` nor `slow_down` terminates the poller at once:
the trace ends at that request (exactly one request, whatever responses
the script still holds) and the result carries the provider's code,
description and URI verbatim.  A provider-reported `expired_token`
therefore surfaces as this authorization failure, not as the
deadline-based expiry error. -/
theorem other_error_terminates (b : TokenBody) (rest : List TokenBody)
    (e : accessTokenErrorResponse) (now interval expiresAt : Int)
    (hb : postAccessToken b = postAccessTokenResult.errorResp e)
    (hpending : e.Error ≠ "authorization_pending")
    (hslow : e.Error ≠ "slow_down")
    (hd : now + interval ≤ expiresAt) :
    pollAccessToken (b :: rest) now interval expiresAt =
      ([Event.sleep interval, Event.deadlineCheck (now + interval) expiresAt,
        Event.request b],
       pollResult.authError e.Error e.ErrorDescription e.ErrorUri) ∧
    countRequests (pollAccessToken (b :: rest) now interval expiresAt).1 = 1 := by
  have hne := postAccessToken_errorResp_nonempty b e hb
  have hcheck : ¬ expiresAt < now + interval := not_lt.mpr hd
  constructor
  · simp [pollAccessToken, hcheck, hb, hpending, hslow, hne]
  · simp [pollAccessToken, hcheck, hb, hpending, hslow, hne, countRequests]

/-- A string-decodable field decodes to its zero-filled value. -/
lemma decodeStr_of_strField (x : Option JVal) (h : strField x = true) :
    decodeStr x = some (strOrZero x) := by
  cases x with
  | none => rfl
  | some v => cases v <;> simp [strField, decodeStr, strOrZero] at h ⊢

/-- An int-decodable field decodes to its zero-filled value. -/
lemma decodeInt_of_intField (x : Option JVal) (h : intField x = true) :
    decodeInt x = some (intOrZero x) := by
  cases x with
  | none => rfl
  | some v => cases v <;> simp [intField, decodeInt, intOrZero] at h ⊢

/-- C8 (amended): `postDeviceCode` fails exactly on bodies that do not
unmarshal (invalid JSON, or an ill-typed known field); a body that is a
well-typed JSON object yields a grant even when required fields are
missing — missing fields are zero-filled, they never cause a failure. -/
theorem postDeviceCode_zero_fills (f : DeviceBodyFields)
    (h1 : strField f.device_code = true) (h2 : intField f.expires_in = true)
    (h3 : intField f.interval = true) (h4 : strField f.user_code = true)
    (h5 : strField f.verification_uri = true) :
    postDeviceCode DeviceCodeBody.malformed = none ∧
    postDeviceCode (DeviceCodeBody.obj f) =
      some ⟨strOrZero f.device_code, intOrZero f.expires_in, intOrZero f.interval,
        strOrZero f.user_code, strOrZero f.verification_uri⟩ := by
  refine ⟨rfl, ?_⟩
  simp [postDeviceCode, unmarshalDeviceCode, decodeStr_of_strField _ h1,
    decodeInt_of_intField _ h2, decodeInt_of_intField _ h3,
    decodeStr_of_strField _ h4, decodeStr_of_strField _ h5]

/-- C8 counterexample: a valid JSON object body missing every required
field does not produce a decode error — `postDeviceCode` returns a
zero-filled grant. -/
theorem postDeviceCode_missing_fields_no_error :
    postDeviceCode emptyDeviceBody = some ⟨"", 0, 0, "", ""⟩ := by decide

/-- C4 (amended): a body whose success-shape unmarshal succeeds with a
non-empty `access_token` is classified as a success, whatever error
fields it also carries — success decoding is tried first and takes
priority. -/
theorem success_decode_priority (f : TokenBodyFields) (r : accessTokenResponse)
    (hu : unmarshalAccessToken (TokenBody.obj f) = some r)
    (hne : r.AccessToken ≠ "") :
    postAccessToken (TokenBody.obj f) = postAccessTokenResult.success r := by
  simp [postAccessToken, hu, hne]

/-- C4 counterexample: a body whose `access_token` field is the
non-empty string `"x"` but whose `token_type` is a number (so the
success unmarshal fails) and which carries `error = "access_denied"` is
classified as an error response, not as a success. -/
theorem mixedBody_classified_as_error :
    postAccessToken mixedBody =
      postAccessTokenResult.errorResp ⟨"access_denied", "", ""⟩ := by decide

/-- C6: a valid JSON object body with neither a non-empty
`access_token` nor a non-empty `error` does not produce a terminal
decode failure: `postAccessToken` returns the all-nil triple, the
poller returns a nil success payload with a nil error, and `run` then
dereferences the nil payload — a runtime panic instead of the intended
malformed-response failure. -/
theorem empty_body_nil_success :
    postAccessToken emptyObjBody = postAccessTokenResult.nilAll ∧
    (pollAccessToken [emptyObjBody] 0 (6 * second) (900 * second)).2 =
      pollResult.nilToken ∧
    run 0 0 0 goodDeviceBody [emptyObjBody] = runResult.panicNilDeref := by decide

/-- C7: when the device-code request decodes, `run` delegates to the
poller with `interval = grant.interval + 1` second and
`expiresAt = issuedAt + grant.expiresIn` seconds, where `issuedAt` is
the instant captured at entry, immediately before the Requester — the
deadline does not depend on the time spent on the request round trip or
on the user-facing output. -/
theorem run_wires_poller (startTime reqElapsed printElapsed : Int)
    (dcBody : DeviceCodeBody) (script : List TokenBody)
    (dcResp : deviceCodeResponse)
    (h : postDeviceCode dcBody = some dcResp) :
    run startTime reqElapsed printElapsed dcBody script =
      (match (pollAccessToken script (startTime + reqElapsed + printElapsed)
          ((dcResp.Interval + 1) * second)
          (startTime + dcResp.ExpiresIn * second)).2 with
       | pollResult.token acResp => runResult.ok acResp.AccessToken
       | pollResult.nilToken => runResult.panicNilDeref
       | res => runResult.pollFailed res) := by
  simp [run, h]

/-- Witness for C2 at a concrete input: one `slow_down` response with
initial interval `5` and deadline `100`. -/
theorem slow_down_doubles_interval_witness :
    ∃ evs, countRequests evs = [slowDownBody].length ∧
      pollAccessToken ([slowDownBody] ++ []) 0 5 100 =
        (evs ++ (pollAccessToken [] (0 + 5 * (2 ^ [slowDownBody].length - 1))
            (5 * 2 ^ [slowDownBody].length) 100).1,
         (pollAccessToken [] (0 + 5 * (2 ^ [slowDownBody].length - 1))
            (5 * 2 ^ [slowDownBody].length) 100).2) :=
  slow_down_doubles_interval [slowDownBody] [] 0 5 100
    (by
      intro b hb
      rw [List.mem_singleton] at hb
      subst hb
      exact ⟨⟨"slow_down", "", ""⟩, by decide, rfl⟩)
    (by decide) (by decide)

/-- Witness for C3 at a concrete input: two `authorization_pending`
responses then a success, interval `6`, deadline `100`. -/
theorem pending_then_success_witness :
    (pollAccessToken ([pendingBody, pendingBody] ++ [successBody]) 0 6 100).2 =
      pollResult.token ⟨"tok123", "bearer", ""⟩ ∧
    countRequests
      (pollAccessToken ([pendingBody, pendingBody] ++ [successBody]) 0 6 100).1 =
      [pendingBody, pendingBody].length + 1 ∧
    sleeps (pollAccessToken ([pendingBody, pendingBody] ++ [successBody]) 0 6 100).1 =
      List.replicate ([pendingBody, pendingBody].length + 1) 6 :=
  pending_then_success [pendingBody, pendingBody] successBody
    ⟨"tok123", "bearer", ""⟩ 0 6 100 (by decide) (by decide)
    (by
      intro b hb
      simp only [List.mem_cons, List.not_mem_nil, or_false] at hb
      rcases hb with h | h <;>
        (subst h; exact ⟨⟨"authorization_pending", "", ""⟩, by decide, rfl⟩))
    (by decide)

/-- Witness for C5 at a concrete input: an `expired_token` response at
the head of the script terminates with the authorization failure even
though further responses remain. -/
theorem other_error_terminates_witness :
    pollAccessToken (expiredTokenBody :: [pendingBody]) 0 6 100 =
      ([Event.sleep 6, Event.deadlineCheck (0 + 6) 100,
        Event.request expiredTokenBody],
       pollResult.authError "expired_token" "" "") ∧
    countRequests (pollAccessToken (expiredTokenBody :: [pendingBody]) 0 6 100).1 = 1 :=
  other_error_terminates expiredTokenBody [pendingBody] ⟨"expired_token", "", ""⟩
    0 6 100 (by decide) (by decide) (by decide) (by decide)

/-- Witness for C9 at a concrete input. -/
theorem poll_state_invariant_witness :
    List.Chain' (· ≤ ·)
      (sleeps (pollAccessToken [slowDownBody, pendingBody] 0 5 100).1) ∧
    ∀ t e, Event.deadlineCheck t e ∈
      (pollAccessToken [slowDownBody, pendingBody] 0 5 100).1 → e = 100 :=
  poll_state_invariant [slowDownBody, pendingBody] 0 5 100 (by decide)

/-- Witness for C10 at a concrete input: a call whose deadline `0` is
already past at start time `5` still sleeps its full interval `3`. -/
theorem sleep_precedes_deadline_check_witness :
    checksAfterSleep (pollAccessToken [] 5 3 0).1 = true ∧
    noSleepRightAfterCheck (pollAccessToken [] 5 3 0).1 = true ∧
    pollAccessToken [] 5 3 0 =
      ([Event.sleep 3, Event.deadlineCheck (5 + 3) 0], pollResult.expired) :=
  ⟨(sleep_precedes_deadline_check [] 5 3 0).1,
   (sleep_precedes_deadline_check [] 5 3 0).2.1,
   (sleep_precedes_deadline_check [] 5 3 0).2.2 (by decide) (by decide)⟩

/-- Witness for C4 (amended) at a concrete input: `access_token = "abc"`
with an `error = "access_denied"` sibling still classifies as success. -/
theorem success_decode_priority_witness :
    postAccessToken (TokenBody.obj ⟨some (JVal.str "abc"), none, none,
      some (JVal.str "access_denied"), none, none⟩) =
      postAccessTokenResult.success ⟨"abc", "", ""⟩ :=
  success_decode_priority
    ⟨some (JVal.str "abc"), none, none, some (JVal.str "access_denied"), none, none⟩
    ⟨"abc", "", ""⟩ (by decide) (by decide)

/-- Witness for C7 at a concrete input: the end-to-end scenario body
with elapsed request and print times `3` and `4`. -/
theorem run_wires_poller_witness :
    run 0 3 4 goodDeviceBody [successBody] =
      (match (pollAccessToken [successBody] (0 + 3 + 4)
          (((5 : Int) + 1) * second) (0 + 900 * second)).2 with
       | pollResult.token acResp => runResult.ok acResp.AccessToken
       | pollResult.nilToken => runResult.panicNilDeref
       | res => runResult.pollFailed res) :=
  run_wires_poller 0 3 4 goodDeviceBody [successBody]
    ⟨"D", 900, 5, "ABCD-1234", "https://x/device"⟩ (by decide)

/-- Witness for C8 (amended) at a concrete input: the all-missing body
yields the zero-filled grant. -/
theorem postDeviceCode_zero_fills_witness :
    postDeviceCode DeviceCodeBody.malformed = none ∧
    postDeviceCode (DeviceCodeBody.obj ⟨none, none, none, none, none⟩) =
      some ⟨"", 0, 0, "", ""⟩ :=
  postDeviceCode_zero_fills ⟨none, none, none, none, none⟩ rfl rfl rfl rfl rfl

/-- The end-to-end scenario of the specification: one `slow_down`
response followed by `expired_token` yields the provider-reported
authorization failure, not the deadline-based expiry error. -/
theorem slowdown_then_expired_scenario :
    (pollAccessToken [slowDownBody, expiredTokenBody] 0 (6 * second)
      (900 * second)).2 = pollResult.authError "expired_token" "" "" := by decide
